import Mathlib

/-!
Verification of the outagemock resource-exhaustion generator.

This file gives a shallow embedding of the Go sources (src/main.go, src/cpu.go,
src/file.go, src/display.go, src/unnamed/part_000) and proves properties of the
embedded definitions.  Conventions used throughout:

* Go `time.Duration` values are modelled as `ℤ` (nanoseconds).
* Go `int64` / `int` values are modelled as `ℤ` (or `ℕ` where the Go value is a
  slice length or loop counter that is non-negative by construction).
* Go `float64` arithmetic is modelled as exact rational arithmetic over `ℚ`;
  the literal `0.2` is modelled as the rational `2/10`.
* Go's conversion `int64(x)` of a float truncates toward zero; it is modelled
  by `truncQ`.
* Go's `/` and `%` on integers round toward zero; they are modelled by
  `Int.tdiv` and `Int.tmod`.
* Operations that can panic (out-of-bounds indexing) or terminate the process
  return `Option`: `none` models the panic/abort path.
-/

/-- Config from src/main.go: the validated configuration.  `Duration` and
`RampupTime` are `time.Duration` nanosecond counts. -/
structure Config where
  CPUPercent : ℚ
  MemoryMB : ℤ
  FileSizeMB : ℤ
  FilePath : String
  Duration : ℤ
  RampupTime : ℤ

/-- Go conversion `int64(q)` of a float: truncation toward zero. -/
def truncQ (q : ℚ) : ℤ := if 0 ≤ q then ⌊q⌋ else ⌈q⌉

/-- getCurrentResourceUsage from src/main.go lines 129-146: current
(CPU, memory, file) targets as a function of elapsed time since rampupStart. -/
def getCurrentResourceUsage (cfg : Config) (elapsed : ℤ) : ℚ × ℤ × ℤ :=
  if cfg.RampupTime ≤ 0 ∨ cfg.RampupTime ≤ elapsed then
    (cfg.CPUPercent, cfg.MemoryMB, cfg.FileSizeMB)
  else
    let progress : ℚ := (elapsed : ℚ) / (cfg.RampupTime : ℚ)
    (progress * cfg.CPUPercent,
     truncQ (progress * (cfg.MemoryMB : ℚ)),
     truncQ (progress * (cfg.FileSizeMB : ℚ)))

/-- getCurrentCPUUsage from src/cpu.go lines 9-22. -/
def getCurrentCPUUsage (cfg : Config) (elapsed : ℤ) : ℚ :=
  if cfg.RampupTime ≤ 0 ∨ cfg.RampupTime ≤ elapsed then cfg.CPUPercent
  else ((elapsed : ℚ) / (cfg.RampupTime : ℚ)) * cfg.CPUPercent

/-- getCurrentMemoryUsage from src/unnamed/part_000 lines 101-114. -/
def getCurrentMemoryUsage (cfg : Config) (elapsed : ℤ) : ℤ :=
  if cfg.RampupTime ≤ 0 ∨ cfg.RampupTime ≤ elapsed then cfg.MemoryMB
  else truncQ (((elapsed : ℚ) / (cfg.RampupTime : ℚ)) * (cfg.MemoryMB : ℚ))

/-- getCurrentFileSizeUsage from src/file.go lines 12-25. -/
def getCurrentFileSizeUsage (cfg : Config) (elapsed : ℤ) : ℤ :=
  if cfg.RampupTime ≤ 0 ∨ cfg.RampupTime ≤ elapsed then cfg.FileSizeMB
  else truncQ (((elapsed : ℚ) / (cfg.RampupTime : ℚ)) * (cfg.FileSizeMB : ℚ))

/-- Per-worker memory target from consumeMemory (src/unnamed/part_000 lines
156-175 and 349-365): `memoryPerGoroutine := currentTargetMB / numGoroutines`,
plus one extra MB for workers whose index is below the remainder
`currentTargetMB % numGoroutines`.  Go integer division/modulus round toward
zero, hence `Int.tdiv` / `Int.tmod`. -/
def workerTarget (currentTargetMB : ℤ) (numGoroutines : ℕ) (i : ℕ) : ℤ :=
  Int.tdiv currentTargetMB (numGoroutines : ℤ) +
    (if (i : ℤ) < Int.tmod currentTargetMB (numGoroutines : ℤ) then 1 else 0)

/-- The fields of ResourceMock (src/main.go lines 27-37) that Cleanup reads or
writes.  `cleanupDone` models the `sync.Once` guard having fired. -/
structure CleanupState where
  cleanupDone : Bool
  cancelled : Bool
  fileNonNil : Bool
  fileOpen : Bool
  filePath : String
  fileOnDisk : Bool
  memoryHeld : Bool
deriving DecidableEq

/-- Observable actions performed by Cleanup, in the order the code performs
them. -/
inductive CleanupAction where
  | cancelCtx
  | waitWorkers
  | closeFile
  | removeFile
deriving DecidableEq

/-- Cleanup from src/main.go lines 149-166.  The body runs under
`rm.cleanup.Do`, so it is skipped entirely when `cleanupDone` is already set.
The `os.Remove` error is discarded by the code, so no error is part of the
observable result; removal is attempted whenever `filePath` is non-empty. -/
def Cleanup (s : CleanupState) : CleanupState × List CleanupAction :=
  if s.cleanupDone then (s, [])
  else
    ({ s with
        cleanupDone := true
        cancelled := true
        fileOpen := false
        fileOnDisk := if s.filePath = "" then s.fileOnDisk else false
        memoryHeld := false },
     [CleanupAction.cancelCtx, CleanupAction.waitWorkers]
       ++ (if s.fileNonNil then [CleanupAction.closeFile] else [])
       ++ (if s.filePath = "" then [] else [CleanupAction.removeFile]))

/-- time.Millisecond in nanoseconds. -/
def millisecond : ℤ := 1000000

/-- workDuration computed by cpuWorker (src/cpu.go line 61):
`time.Duration(currentCPUPercent*0.2) * time.Millisecond`.  The float-to-
Duration conversion truncates toward zero before the millisecond scaling. -/
def cpuWorkDuration (p : ℚ) : ℤ := truncQ (p * (2 / 10)) * millisecond

/-- sleepDuration computed by cpuWorker (src/cpu.go line 62):
`time.Duration((100-currentCPUPercent)*0.2) * time.Millisecond`. -/
def cpuSleepDuration (p : ℚ) : ℤ := truncQ ((100 - p) * (2 / 10)) * millisecond

/-- Outcome of one file-worker tick.  `processExit` models `log.Fatalf`, which
prints the diagnostic and then calls `os.Exit(1)`, terminating the entire
process; `keepRunning` models falling through to the next tick. -/
inductive FileWorkerOutcome where
  | keepRunning
  | workerReturn
  | processExit
deriving DecidableEq

/-- One ticker iteration of consumeFile from src/file.go lines 281-325 (the
variant cited at lines 302 and 325, which tracks `writtenBytes` and writes up
to 10 MiB per tick in buffer-sized chunks).  `writeOk` models whether
`file.Write` succeeds on this tick and `syncOk` whether `file.Sync` succeeds.
On a write error the code runs `log.Fatalf("Failed to write to file: ...")`
(the `return` after it is unreachable), and on a sync error it runs
`log.Fatalf("Failed to sync file: ...")`; both are modelled as `processExit`.
Returns the outcome together with the updated `writtenBytes`. -/
def consumeFileTick (writtenBytes currentFileSizeMB : ℤ) (writeOk syncOk : Bool) :
    FileWorkerOutcome × ℤ :=
  let currentFileSize := currentFileSizeMB * 1024 * 1024
  if writtenBytes < currentFileSize then
    if writeOk then
      let bytesToWrite := min (currentFileSize - writtenBytes) (10 * 1024 * 1024)
      if syncOk then (FileWorkerOutcome.keepRunning, writtenBytes + bytesToWrite)
      else (FileWorkerOutcome.processExit, writtenBytes + bytesToWrite)
    else (FileWorkerOutcome.processExit, writtenBytes)
  else (FileWorkerOutcome.keepRunning, writtenBytes)

/-- The three actuator goroutines Start can spawn. -/
inductive ActuatorKind where
  | memory
  | file
  | cpu
deriving DecidableEq

/-- Start from src/main.go lines 101-121: the list of actuator goroutines
spawned, in program order.  Each is guarded by its configured target being
strictly positive. -/
def startLaunched (cfg : Config) : List ActuatorKind :=
  (if 0 < cfg.MemoryMB then [ActuatorKind.memory] else [])
    ++ (if 0 < cfg.FileSizeMB then [ActuatorKind.file] else [])
    ++ (if 0 < cfg.CPUPercent then [ActuatorKind.cpu] else [])

/-- Entry guard of consumeFile (src/file.go lines 253-255): the worker returns
before `os.Create` whenever `FileSizeMB <= 0`, so a file is created only when
this is true. -/
def consumeFileCreates (cfg : Config) : Bool := decide (0 < cfg.FileSizeMB)

/-- Digit value of a character, as strconv's lower/digit tables: decimal
digits, then letters (case-insensitive) for values 10-35. -/
def digitVal (c : Char) : Option ℕ :=
  if c.toNat ≥ 48 ∧ c.toNat ≤ 57 then some (c.toNat - 48)
  else if c.toNat ≥ 97 ∧ c.toNat ≤ 122 then some (c.toNat - 97 + 10)
  else if c.toNat ≥ 65 ∧ c.toNat ≤ 90 then some (c.toNat - 65 + 10)
  else none

/-- Accumulate digits in the given base; any character that is not a valid
digit of the base is a syntax error (none). -/
def parseDigitsAux (base : ℕ) (acc : ℕ) : List Char → Option ℕ
  | [] => some acc
  | c :: cs =>
    match digitVal c with
    | none => none
    | some d => if d < base then parseDigitsAux base (acc * base + d) cs else none

/-- Parse a non-empty digit string in the given base. -/
def parseUint (base : ℕ) (cs : List Char) : Option ℕ :=
  match cs with
  | [] => none
  | _ :: _ => parseDigitsAux base 0 cs

/-- Models `strconv.ParseInt(s, 0, 64)` as invoked by `flag.Int64Var` for the
`-fsize` option (src/main.go line 44): optional sign, base detection from the
`0x`/`0o`/`0b`/leading-`0` prefix, digits of that base only, and the int64
range check.  (Underscore digit separators are not modelled; no input
considered here contains them.) -/
def parseGoInt64 (s : String) : Option ℤ :=
  let cs := s.toList
  let signed : Bool × List Char :=
    match cs with
    | '+' :: rest => (false, rest)
    | '-' :: rest => (true, rest)
    | rest => (false, rest)
  let based : ℕ × List Char :=
    match signed.2 with
    | '0' :: 'x' :: rest => (16, rest)
    | '0' :: 'X' :: rest => (16, rest)
    | '0' :: 'o' :: rest => (8, rest)
    | '0' :: 'O' :: rest => (8, rest)
    | '0' :: 'b' :: rest => (2, rest)
    | '0' :: 'B' :: rest => (2, rest)
    | '0' :: c :: rest => (8, '0' :: c :: rest)
    | rest => (10, rest)
  match parseUint based.1 based.2 with
  | none => none
  | some n =>
    let v : ℤ := if signed.1 then -(n : ℤ) else (n : ℤ)
    if -(2 ^ 63) ≤ v ∧ v ≤ 2 ^ 63 - 1 then some v else none

/-- BlockBytes from src/unnamed/part_000 line 9: each Block is 1 MiB. -/
def BlockBytes : ℕ := 1024 * 1024

/-- Page from src/unnamed/part_000 lines 12-14: a 4096-byte buffer.  Bytes are
modelled as `ℕ` values; `data` is the content at each position. -/
structure Page where
  data : ℕ → ℕ

/-- Page.Get from src/unnamed/part_000 lines 17-19: `p.data[pos]`, which
panics (none) when `pos` is outside the 4096-byte array. -/
def Page.Get (p : Page) (pos : ℕ) : Option ℕ :=
  if pos < 4096 then some (p.data pos) else none

/-- Page.Set from src/unnamed/part_000 lines 22-24: `p.data[pos] = value`,
which panics (none) when `pos` is outside the 4096-byte array. -/
def Page.Set (p : Page) (pos : ℕ) (value : ℕ) : Option Page :=
  if pos < 4096 then some ⟨Function.update p.data pos value⟩ else none

/-- The offsets visited by the loop `for j := 0; j < 4096; j += 1023`, which
appears both in NewBlock (line 37) and in Block.Iter (line 47) of
src/unnamed/part_000. -/
def iterStride (j : ℕ) : List ℕ :=
  if j < 4096 then j :: iterStride (j + 1023) else []
termination_by 4096 - j
decreasing_by omega

/-- Block from src/unnamed/part_000 lines 27-29: 256 pages of 4 KiB.  The Go
field is an array `[256]*Page` of pointers to distinct pages; indexing it is
modelled by `Block.getPage`. -/
structure Block where
  pages : ℕ → Page

/-- Indexing `b.pages[i]`: panics (none) outside the 256-entry array. -/
def Block.getPage (b : Block) (i : ℕ) : Option Page :=
  if i < 256 then some (b.pages i) else none

/-- The page built by the NewBlock loop body (src/unnamed/part_000 lines
34-39): a fresh zeroed page with `Set(j, byte(j))` applied at every stride
offset. -/
def newBlockPage : Option Page :=
  (iterStride 0).foldlM (fun p j => p.Set j (j % 256)) ⟨fun _ => 0⟩

/-- NewBlock from src/unnamed/part_000 lines 32-42: allocates 256 pages, each
filled with the stride pattern.  All pages carry the same content, so the
page array is modelled as a constant function. -/
def NewBlock : Option Block :=
  newBlockPage.map fun p => ⟨fun _ => p⟩

/-- Inner loop of Block.Iter (src/unnamed/part_000 lines 47-49): at each
stride offset `j`, `page.Set(j, page.Get(j+1))`. -/
def Block.IterPage (p : Page) : Option Page :=
  (iterStride 0).foldlM (fun q j => (q.Get (j + 1)).bind fun v => q.Set j v) p

/-- Block.Iter from src/unnamed/part_000 lines 44-51: for each of the 256
pages, run the stride read/write loop on it.  The Go code mutates the page
through its pointer; this is modelled by updating the page array at `i`. -/
def Block.Iter (b : Block) : Option Block :=
  (List.range 256).foldlM
    (fun bb i => (bb.getPage i).bind fun p =>
      (Block.IterPage p).map fun p2 => ⟨Function.update bb.pages i p2⟩)
    b

/-- Area from src/unnamed/part_000 lines 54-57: a growable sequence of blocks
plus the rotating cursor `curPos` (a Go `int`, hence `ℤ`). -/
structure Area where
  blocks : List Block
  curPos : ℤ

/-- NewArea from src/unnamed/part_000 lines 60-64: empty block list, cursor 0
(the capacity argument only pre-allocates and has no observable effect). -/
def NewArea (capacity : ℕ) : Area := { blocks := [], curPos := 0 }

/-- Go slice indexing `blocks[i]` with an int index: panics (none) outside
`[0, len)`. -/
def goIndex {α : Type} (l : List α) (i : ℤ) : Option α :=
  if h : 0 ≤ i ∧ i < (l.length : ℤ) then some (l.get ⟨i.toNat, by omega⟩) else none

/-- Writing back through the pointer read at index `i` is modelled as a list
update at `i`. -/
def goWrite {α : Type} (l : List α) (i : ℤ) (x : α) : List α := l.set i.toNat x

/-- Area.Increase from src/unnamed/part_000 lines 67-69: append one new
block. -/
def Area.Increase (a : Area) : Option Area :=
  NewBlock.map fun b => { a with blocks := a.blocks ++ [b] }

/-- Area.GetBlockCount from src/unnamed/part_000 lines 72-74. -/
def Area.GetBlockCount (a : Area) : ℕ := a.blocks.length

/-- Area.GetTotalSizeMB from src/unnamed/part_000 lines 77-79: one MB per
block. -/
def Area.GetTotalSizeMB (a : Area) : ℤ := (a.blocks.length : ℤ)

/-- Body of the `for i := 0; i < nextRange; i++` loop of Area.Access
(src/unnamed/part_000 lines 90-97): advance the cursor, wrap it to 0 when it
reaches `blockCount`, then run Block.Iter on the block at the cursor. -/
def accessStep (blockCount : ℕ) (st : Area) : Option Area :=
  let c0 := st.curPos + 1
  let c := if (blockCount : ℤ) ≤ c0 then 0 else c0
  (goIndex st.blocks c).bind fun b =>
    (Block.Iter b).map fun b2 => { blocks := goWrite st.blocks c b2, curPos := c }

/-- Area.Access from src/unnamed/part_000 lines 82-98: empty areas return
immediately; otherwise the cursor is advanced once and then
`blockCount/100 + 1` loop iterations run `accessStep`. -/
def Area.Access (a : Area) : Option Area :=
  let blockCount := a.blocks.length
  if blockCount = 0 then some a
  else
    (List.range (blockCount / 100 + 1)).foldlM
      (fun st _ => accessStep blockCount st)
      { a with curPos := a.curPos + 1 }

/-- The `allocTicker` branch of memoryWorker (src/unnamed/part_000 lines
210-230): access the area to keep it resident, then, if the assigned target
is positive and the area is still below it, add exactly one 1 MB block. -/
def memoryWorkerTick (area : Area) (currentTargetMB : ℤ) : Option Area :=
  (Area.Access area).bind fun a1 =>
    if 0 < currentTargetMB then
      if a1.GetTotalSizeMB < currentTargetMB then a1.Increase else some a1
    else some a1

/-- Concrete empty area used to instantiate theorems with hypotheses. -/
def areaEmpty : Area := { blocks := [], curPos := 0 }

/-! Helper lemmas. -/

theorem truncQ_intCast (m : ℤ) : truncQ (m : ℚ) = m := by
  unfold truncQ
  split
  · exact Int.floor_intCast m
  · exact Int.ceil_intCast m

theorem truncQ_mono_of_nonneg {a b : ℚ} (ha : 0 ≤ a) (hab : a ≤ b) :
    truncQ a ≤ truncQ b := by
  unfold truncQ
  rw [if_pos ha, if_pos (le_trans ha hab)]
  exact Int.floor_le_floor hab

theorem getCurrentResourceUsage_eq (cfg : Config) (elapsed : ℤ) :
    getCurrentResourceUsage cfg elapsed =
      (getCurrentCPUUsage cfg elapsed, getCurrentMemoryUsage cfg elapsed,
       getCurrentFileSizeUsage cfg elapsed) := by
  unfold getCurrentResourceUsage getCurrentCPUUsage getCurrentMemoryUsage
    getCurrentFileSizeUsage
  split <;> rfl

theorem sum_if_lt_range (W r : ℕ) :
    r ≤ W → ∑ i ∈ Finset.range W, (if i < r then (1 : ℤ) else 0) = (r : ℤ) := by
  induction W with
  | zero =>
    intro h
    have hr : r = 0 := by omega
    subst hr
    simp
  | succ n ih =>
    intro h
    rw [Finset.sum_range_succ]
    by_cases hrn : r ≤ n
    · rw [ih hrn, if_neg (by omega), add_zero]
    · have hr : r = n + 1 := by omega
      subst hr
      rw [if_pos (by omega)]
      have hall : ∀ i ∈ Finset.range n, (if i < n + 1 then (1 : ℤ) else 0) = 1 := by
        intro i hi
        exact if_pos (by have := Finset.mem_range.mp hi; omega)
      rw [Finset.sum_congr rfl hall, Finset.sum_const, Finset.card_range, nsmul_eq_mul,
        mul_one]
      push_cast
      ring

/-- C1: for every configuration and elapsed time, all four ramp target
functions (getCurrentResourceUsage, getCurrentCPUUsage, getCurrentMemoryUsage,
getCurrentFileSizeUsage) return exactly the configured CPUPercent / MemoryMB /
FileSizeMB whenever rampupTime <= 0 or elapsed >= rampupTime. -/
theorem ramp_reaches_target_exactly (cfg : Config) (elapsed : ℤ)
    (h : cfg.RampupTime ≤ 0 ∨ cfg.RampupTime ≤ elapsed) :
    getCurrentResourceUsage cfg elapsed = (cfg.CPUPercent, cfg.MemoryMB, cfg.FileSizeMB) ∧
    getCurrentCPUUsage cfg elapsed = cfg.CPUPercent ∧
    getCurrentMemoryUsage cfg elapsed = cfg.MemoryMB ∧
    getCurrentFileSizeUsage cfg elapsed = cfg.FileSizeMB := by
  unfold getCurrentResourceUsage getCurrentCPUUsage getCurrentMemoryUsage
    getCurrentFileSizeUsage
  rw [if_pos h, if_pos h, if_pos h, if_pos h]
  exact ⟨rfl, rfl, rfl, rfl⟩

/-- Witness for C1 at a concrete configuration: rampup 10ns, elapsed 10ns. -/
theorem ramp_reaches_target_exactly_witness :
    getCurrentResourceUsage ⟨50, 100, 200, "outagemock_temp_file", 30, 10⟩ 10 =
      (50, 100, 200) :=
  (ramp_reaches_target_exactly ⟨50, 100, 200, "outagemock_temp_file", 30, 10⟩ 10
    (Or.inr (by norm_num))).1

/-- C2: with a positive rampup time and validated (non-negative) targets, each
ramp target function is non-decreasing on [0, rampupTime), and at elapsed = 0
every target is 0. -/
theorem ramp_monotone_and_zero_at_start (cfg : Config) (e1 e2 : ℤ)
    (hR : 0 < cfg.RampupTime) (hcpu : 0 ≤ cfg.CPUPercent) (hmem : 0 ≤ cfg.MemoryMB)
    (hfile : 0 ≤ cfg.FileSizeMB) (h1 : 0 ≤ e1) (h12 : e1 ≤ e2) (h2 : e2 < cfg.RampupTime) :
    getCurrentCPUUsage cfg e1 ≤ getCurrentCPUUsage cfg e2 ∧
    getCurrentMemoryUsage cfg e1 ≤ getCurrentMemoryUsage cfg e2 ∧
    getCurrentFileSizeUsage cfg e1 ≤ getCurrentFileSizeUsage cfg e2 ∧
    (getCurrentResourceUsage cfg e1).1 ≤ (getCurrentResourceUsage cfg e2).1 ∧
    (getCurrentResourceUsage cfg e1).2.1 ≤ (getCurrentResourceUsage cfg e2).2.1 ∧
    (getCurrentResourceUsage cfg e1).2.2 ≤ (getCurrentResourceUsage cfg e2).2.2 ∧
    getCurrentCPUUsage cfg 0 = 0 ∧
    getCurrentMemoryUsage cfg 0 = 0 ∧
    getCurrentFileSizeUsage cfg 0 = 0 := by
  have hno1 : ¬(cfg.RampupTime ≤ 0 ∨ cfg.RampupTime ≤ e1) := by omega
  have hno2 : ¬(cfg.RampupTime ≤ 0 ∨ cfg.RampupTime ≤ e2) := by omega
  have hno0 : ¬(cfg.RampupTime ≤ 0 ∨ cfg.RampupTime ≤ (0 : ℤ)) := by omega
  have hRq : (0 : ℚ) ≤ (cfg.RampupTime : ℚ) := by exact_mod_cast le_of_lt hR
  have hprog : ((e1 : ℤ) : ℚ) / (cfg.RampupTime : ℚ) ≤ ((e2 : ℤ) : ℚ) / (cfg.RampupTime : ℚ) :=
    div_le_div_of_nonneg_right (by exact_mod_cast h12) hRq
  have hprog1 : (0 : ℚ) ≤ ((e1 : ℤ) : ℚ) / (cfg.RampupTime : ℚ) :=
    div_nonneg (by exact_mod_cast h1) hRq
  have hmemq : (0 : ℚ) ≤ (cfg.MemoryMB : ℚ) := by exact_mod_cast hmem
  have hfileq : (0 : ℚ) ≤ (cfg.FileSizeMB : ℚ) := by exact_mod_cast hfile
  have hcpuMono : getCurrentCPUUsage cfg e1 ≤ getCurrentCPUUsage cfg e2 := by
    unfold getCurrentCPUUsage
    rw [if_neg hno1, if_neg hno2]
    exact mul_le_mul_of_nonneg_right hprog hcpu
  have hmemMono : getCurrentMemoryUsage cfg e1 ≤ getCurrentMemoryUsage cfg e2 := by
    unfold getCurrentMemoryUsage
    rw [if_neg hno1, if_neg hno2]
    exact truncQ_mono_of_nonneg (mul_nonneg hprog1 hmemq)
      (mul_le_mul_of_nonneg_right hprog hmemq)
  have hfileMono : getCurrentFileSizeUsage cfg e1 ≤ getCurrentFileSizeUsage cfg e2 := by
    unfold getCurrentFileSizeUsage
    rw [if_neg hno1, if_neg hno2]
    exact truncQ_mono_of_nonneg (mul_nonneg hprog1 hfileq)
      (mul_le_mul_of_nonneg_right hprog hfileq)
  have hcpu0 : getCurrentCPUUsage cfg 0 = 0 := by
    unfold getCurrentCPUUsage
    rw [if_neg hno0]
    norm_num
  have hmem0 : getCurrentMemoryUsage cfg 0 = 0 := by
    unfold getCurrentMemoryUsage
    rw [if_neg hno0]
    norm_num
    exact truncQ_intCast 0
  have hfile0 : getCurrentFileSizeUsage cfg 0 = 0 := by
    unfold getCurrentFileSizeUsage
    rw [if_neg hno0]
    norm_num
    exact truncQ_intCast 0
  refine ⟨hcpuMono, hmemMono, hfileMono, ?_, ?_, ?_, hcpu0, hmem0, hfile0⟩ <;>
    rw [getCurrentResourceUsage_eq, getCurrentResourceUsage_eq]
  · exact hcpuMono
  · exact hmemMono
  · exact hfileMono

/-- Witness for C2 at a concrete configuration with rampup 10ns, elapsed
times 2ns and 5ns. -/
theorem ramp_monotone_and_zero_at_start_witness :
    getCurrentCPUUsage ⟨50, 100, 200, "outagemock_temp_file", 30, 10⟩ 2 ≤
      getCurrentCPUUsage ⟨50, 100, 200, "outagemock_temp_file", 30, 10⟩ 5 ∧
    getCurrentMemoryUsage ⟨50, 100, 200, "outagemock_temp_file", 30, 10⟩ 0 = 0 :=
  ⟨(ramp_monotone_and_zero_at_start ⟨50, 100, 200, "outagemock_temp_file", 30, 10⟩ 2 5
      (by norm_num) (by norm_num) (by norm_num) (by norm_num) (by norm_num) (by norm_num)
      (by norm_num)).1,
   (ramp_monotone_and_zero_at_start ⟨50, 100, 200, "outagemock_temp_file", 30, 10⟩ 2 5
      (by norm_num) (by norm_num) (by norm_num) (by norm_num) (by norm_num) (by norm_num)
      (by norm_num)).2.2.2.2.2.2.2.1⟩

/-- C3: for every non-negative currentTargetMB and worker count W >= 1, the
per-worker targets assigned by consumeMemory sum to currentTargetMB exactly,
and any two workers' targets differ by at most 1. -/
theorem memory_distribution_exact_sum_and_fair (T : ℤ) (W : ℕ)
    (hT : 0 ≤ T) (hW : 1 ≤ W) :
    (∑ i ∈ Finset.range W, workerTarget T W i) = T ∧
    ∀ i j, i < W → j < W → |workerTarget T W i - workerTarget T W j| ≤ 1 := by
  have hWpos : (0 : ℤ) < (W : ℤ) := by exact_mod_cast hW
  have hWz : ((W : ℤ)) ≠ 0 := hWpos.ne'
  have hdiv : Int.tdiv T (W : ℤ) = T / (W : ℤ) := Int.tdiv_eq_ediv hT (le_of_lt hWpos)
  have hmod : Int.tmod T (W : ℤ) = T % (W : ℤ) := by
    have h1 := Int.ediv_add_emod T (W : ℤ)
    have h2 := Int.tdiv_add_tmod T (W : ℤ)
    rw [hdiv] at h2
    omega
  have hR0 : 0 ≤ T % (W : ℤ) := Int.emod_nonneg T hWz
  have hRW : T % (W : ℤ) < (W : ℤ) := Int.emod_lt_of_pos T hWpos
  constructor
  · have hcong : ∀ i ∈ Finset.range W, workerTarget T W i =
        T / (W : ℤ) + (if i < (T % (W : ℤ)).toNat then (1 : ℤ) else 0) := by
      intro i _
      unfold workerTarget
      rw [hdiv, hmod]
      have hiff : ((i : ℤ) < T % (W : ℤ)) ↔ (i < (T % (W : ℤ)).toNat) := by omega
      rw [if_congr hiff rfl rfl]
    rw [Finset.sum_congr rfl hcong, Finset.sum_add_distrib, Finset.sum_const,
      Finset.card_range, nsmul_eq_mul,
      sum_if_lt_range W (T % (W : ℤ)).toNat (by omega)]
    have htn : (((T % (W : ℤ)).toNat : ℤ)) = T % (W : ℤ) := Int.toNat_of_nonneg hR0
    rw [htn]
    exact Int.ediv_add_emod T (W : ℤ)
  · intro i j _ _
    unfold workerTarget
    rw [abs_sub_le_iff]
    constructor <;> split_ifs <;> omega

/-- Witness for C3 with 7 MB split across 3 workers. -/
theorem memory_distribution_exact_sum_and_fair_witness :
    (∑ i ∈ Finset.range 3, workerTarget 7 3 i) = 7 ∧
    |workerTarget 7 3 0 - workerTarget 7 3 1| ≤ 1 :=
  ⟨(memory_distribution_exact_sum_and_fair 7 3 (by norm_num) (by norm_num)).1,
   (memory_distribution_exact_sum_and_fair 7 3 (by norm_num) (by norm_num)).2 0 1
     (by norm_num) (by norm_num)⟩

/-- C4: Cleanup is idempotent.  The second call returns the same state with no
actions at all, and across both calls the file is closed at most once and
removed at most once (the code ignores the os.Remove error, so no
duplicate-removal error can be surfaced, and no operation panics). -/
theorem cleanup_idempotent (s : CleanupState) :
    Cleanup (Cleanup s).1 = ((Cleanup s).1, []) ∧
    ((Cleanup s).2 ++ (Cleanup (Cleanup s).1).2).count CleanupAction.closeFile ≤ 1 ∧
    ((Cleanup s).2 ++ (Cleanup (Cleanup s).1).2).count CleanupAction.removeFile ≤ 1 := by
  obtain ⟨cd, cc, fn, fo, fp, fd, mh⟩ := s
  cases cd <;> cases fn <;> by_cases hfp : fp = "" <;>
    simp [Cleanup, hfp, List.count_append]

/-- C5 (code bug evidence): in the consumeFile variant cited at src/file.go
lines 302 and 325, a failing write (or a failing sync) during a tick does not
make the worker return: it runs log.Fatalf, which exits the whole process,
taking the CPU and memory actuators down with it. -/
theorem file_write_failure_exits_process :
    (consumeFileTick 0 1 false true).1 = FileWorkerOutcome.processExit ∧
    (consumeFileTick 0 1 true false).1 = FileWorkerOutcome.processExit ∧
    (consumeFileTick 0 1 false true).1 ≠ FileWorkerOutcome.workerReturn ∧
    (consumeFileTick 0 1 true false).1 ≠ FileWorkerOutcome.workerReturn := by
  decide

/-- C7: an actuator with a zero configured target is not launched by Start at
all, and with FileSizeMB = 0 the file worker is not spawned and consumeFile
would not create a file. -/
theorem zero_target_not_launched (cfg : Config) :
    (cfg.CPUPercent = 0 → ActuatorKind.cpu ∉ startLaunched cfg) ∧
    (cfg.MemoryMB = 0 → ActuatorKind.memory ∉ startLaunched cfg) ∧
    (cfg.FileSizeMB = 0 →
      ActuatorKind.file ∉ startLaunched cfg ∧ consumeFileCreates cfg = false) := by
  refine ⟨fun h => ?_, fun h => ?_, fun h => ⟨?_, ?_⟩⟩
  · simp only [startLaunched, h]
    split_ifs <;> simp_all
  · simp only [startLaunched, h]
    split_ifs <;> simp_all
  · simp only [startLaunched, h]
    split_ifs <;> simp_all
  · simp [consumeFileCreates, h]

/-- Witness for C7 at the all-zero configuration. -/
theorem zero_target_not_launched_witness :
    ActuatorKind.cpu ∉ startLaunched ⟨0, 0, 0, "outagemock_temp_file", 30, 10⟩ ∧
    ActuatorKind.memory ∉ startLaunched ⟨0, 0, 0, "outagemock_temp_file", 30, 10⟩ ∧
    ActuatorKind.file ∉ startLaunched ⟨0, 0, 0, "outagemock_temp_file", 30, 10⟩ ∧
    consumeFileCreates ⟨0, 0, 0, "outagemock_temp_file", 30, 10⟩ = false :=
  ⟨(zero_target_not_launched _).1 rfl, (zero_target_not_launched _).2.1 rfl,
   ((zero_target_not_launched _).2.2 rfl).1, ((zero_target_not_launched _).2.2 rfl).2⟩

/-- C8 (counterexample): at target percent 33, cpuWorker computes a work
duration of 6ms (truncation of 6.6ms), which differs from the exact value
33 * 0.2ms claimed, and the work/sleep cycle sums to 19ms, not 20ms. -/
theorem cpu_duty_cycle_not_exact_at_33 :
    cpuWorkDuration 33 = 6 * millisecond ∧
    (cpuWorkDuration 33 : ℚ) ≠ 33 * (2 / 10) * (millisecond : ℚ) ∧
    cpuWorkDuration 33 + cpuSleepDuration 33 = 19 * millisecond ∧
    cpuWorkDuration 33 + cpuSleepDuration 33 ≠ 20 * millisecond := by
  have h1 : truncQ ((33 : ℚ) * (2 / 10)) = 6 := by
    unfold truncQ
    rw [if_pos (by norm_num)]
    rw [Int.floor_eq_iff]
    constructor <;> norm_num
  have h2 : truncQ ((100 - (33 : ℚ)) * (2 / 10)) = 13 := by
    unfold truncQ
    rw [if_pos (by norm_num)]
    rw [Int.floor_eq_iff]
    constructor <;> norm_num
  unfold cpuWorkDuration cpuSleepDuration
  rw [h1, h2]
  refine ⟨rfl, ?_, by norm_num [millisecond], by norm_num [millisecond]⟩
  norm_num [millisecond]

/-- C8 (amended): the computed durations are truncations to whole
milliseconds; whenever the target percent p is a multiple of 5 (so p * 0.2 is
a whole number of milliseconds), the exact equations hold: workDuration =
(p/5)ms, the cycle sums to exactly 20ms, and the busy fraction is exactly p
percent of the 20ms cycle. -/
theorem cpu_duty_cycle_exact_on_multiples_of_five (p : ℚ) (m : ℤ)
    (hp : p = 5 * (m : ℚ)) (hm0 : 0 ≤ m) (hm20 : m ≤ 20) :
    cpuWorkDuration p = m * millisecond ∧
    cpuSleepDuration p = (20 - m) * millisecond ∧
    cpuWorkDuration p + cpuSleepDuration p = 20 * millisecond ∧
    (cpuWorkDuration p : ℚ) * 100 = p * ((20 * millisecond : ℤ) : ℚ) := by
  subst hp
  have h1 : (5 * (m : ℚ)) * (2 / 10) = ((m : ℤ) : ℚ) := by push_cast; ring
  have h2 : (100 - 5 * (m : ℚ)) * (2 / 10) = ((20 - m : ℤ) : ℚ) := by push_cast; ring
  unfold cpuWorkDuration cpuSleepDuration
  rw [h1, h2, truncQ_intCast, truncQ_intCast]
  refine ⟨rfl, rfl, by ring, ?_⟩
  push_cast [millisecond]
  ring

/-- Witness for the amended C8 at p = 35 (m = 7). -/
theorem cpu_duty_cycle_exact_on_multiples_of_five_witness :
    cpuWorkDuration 35 = 7 * millisecond ∧
    cpuSleepDuration 35 = (20 - 7) * millisecond ∧
    cpuWorkDuration 35 + cpuSleepDuration 35 = 20 * millisecond ∧
    (cpuWorkDuration 35 : ℚ) * 100 = 35 * ((20 * millisecond : ℤ) : ℚ) :=
  cpu_duty_cycle_exact_on_multiples_of_five 35 7 (by norm_num) (by norm_num) (by norm_num)

/-- C9 (counterexample): the -fsize flag parses with strconv.ParseInt, so the
unit-suffixed inputs of the claim are rejected outright rather than converted:
"1.5G" does not parse to 1536 and "100M" does not parse to 100. -/
theorem fsize_unit_suffix_not_parsed :
    parseGoInt64 "1.5G" ≠ some 1536 ∧ parseGoInt64 "100M" ≠ some 100 ∧
    parseGoInt64 "1.5G" = none ∧ parseGoInt64 "100M" = none := by
  decide

/-- C9 (amended): the file size option accepts only plain integers; any
unit-suffixed input (valid or invalid unit alike) is a parse error, which
flag handling turns into a fatal configuration error before Start runs. -/
theorem fsize_flag_accepts_plain_integers_only :
    parseGoInt64 "100" = some 100 ∧ parseGoInt64 "1536" = some 1536 ∧
    parseGoInt64 "100X" = none ∧ parseGoInt64 "100M" = none ∧
    parseGoInt64 "1.5G" = none := by
  decide

/-! Arena lemmas. -/

theorem iterStride_zero : iterStride 0 = [0, 1023, 2046, 3069, 4092] := by
  simp [iterStride]

theorem iterStride_mem : ∀ j ∈ iterStride 0, j < 4096 ∧ j + 1 < 4096 ∧ j + 1 ≤ 4093 := by
  rw [iterStride_zero]
  decide

theorem foldlM_option_total {α β : Type} (f : β → α → Option β) :
    ∀ (l : List α), (∀ b a, a ∈ l → ∃ b2, f b a = some b2) →
      ∀ b, ∃ r, List.foldlM f b l = some r := by
  intro l
  induction l with
  | nil => intro _ b; exact ⟨b, rfl⟩
  | cons x xs ih =>
    intro h b
    obtain ⟨b2, hb2⟩ := h b x (List.mem_cons_self x xs)
    obtain ⟨r, hr⟩ := ih (fun b a ha => h b a (List.mem_cons_of_mem x ha)) b2
    refine ⟨r, ?_⟩
    rw [List.foldlM_cons, hb2]
    exact hr

theorem iterPage_total (p : Page) : ∃ q, Block.IterPage p = some q := by
  unfold Block.IterPage
  apply foldlM_option_total
  intro q j hj
  have hb := iterStride_mem j hj
  refine ⟨⟨Function.update q.data j (q.data (j + 1))⟩, ?_⟩
  rw [show Page.Get q (j + 1) = some (q.data (j + 1)) from by
        rw [Page.Get, if_pos hb.2.1],
      Option.some_bind,
      show Page.Set q j (q.data (j + 1)) =
          some ⟨Function.update q.data j (q.data (j + 1))⟩ from by
        rw [Page.Set, if_pos hb.1]]

theorem blockIter_total (b : Block) : ∃ r, Block.Iter b = some r := by
  unfold Block.Iter
  apply foldlM_option_total
  intro bb i hi
  have hi2 : i < 256 := List.mem_range.mp hi
  obtain ⟨q, hq⟩ := iterPage_total (bb.pages i)
  refine ⟨⟨Function.update bb.pages i q⟩, ?_⟩
  rw [show Block.getPage bb i = some (bb.pages i) from by
        rw [Block.getPage, if_pos hi2],
      Option.some_bind, hq, Option.map_some']

theorem newBlock_isSome : ∃ b, NewBlock = some b := by
  have hp : ∃ p, newBlockPage = some p := by
    unfold newBlockPage
    apply foldlM_option_total
    intro p j hj
    have hb := iterStride_mem j hj
    refine ⟨⟨Function.update p.data j (j % 256)⟩, ?_⟩
    rw [Page.Set, if_pos hb.1]
  obtain ⟨p, hp⟩ := hp
  refine ⟨⟨fun _ => p⟩, ?_⟩
  unfold NewBlock
  rw [hp, Option.map_some']

theorem increase_spec (a : Area) :
    ∃ r, a.Increase = some r ∧ r.blocks.length = a.blocks.length + 1 ∧
      r.curPos = a.curPos := by
  obtain ⟨b, hb⟩ := newBlock_isSome
  refine ⟨{ a with blocks := a.blocks ++ [b] }, ?_, by simp, rfl⟩
  unfold Area.Increase
  rw [hb, Option.map_some']

theorem accessStep_spec (n : ℕ) (st : Area) (hn : 0 < n)
    (hlen : st.blocks.length = n) (hpos : 0 ≤ st.curPos) :
    ∃ r, accessStep n st = some r ∧ r.blocks.length = n ∧ 0 ≤ r.curPos ∧
      r.curPos < (n : ℤ) := by
  simp only [accessStep]
  set c : ℤ := if (n : ℤ) ≤ st.curPos + 1 then 0 else st.curPos + 1 with hcdef
  have hc0 : 0 ≤ c := by rw [hcdef]; split_ifs <;> omega
  have hcn : c < (n : ℤ) := by rw [hcdef]; split_ifs <;> omega
  have hcl : c < (st.blocks.length : ℤ) := by omega
  have hget : goIndex st.blocks c = some (st.blocks.get ⟨c.toNat, by omega⟩) := by
    unfold goIndex
    rw [dif_pos ⟨hc0, hcl⟩]
  obtain ⟨b2, hb2⟩ := blockIter_total (st.blocks.get ⟨c.toNat, by omega⟩)
  refine ⟨{ blocks := goWrite st.blocks c b2, curPos := c }, ?_, ?_, hc0, hcn⟩
  · rw [hget, Option.some_bind, hb2, Option.map_some']
  · simp only [goWrite, List.length_set]
    exact hlen

theorem accessStep_length (n : ℕ) (st r : Area) (h : accessStep n st = some r) :
    r.blocks.length = st.blocks.length := by
  simp only [accessStep] at h
  set c : ℤ := if (n : ℤ) ≤ st.curPos + 1 then 0 else st.curPos + 1 with hcdef
  cases hg : goIndex st.blocks c with
  | none =>
    rw [hg, Option.none_bind] at h
    exact Option.noConfusion h
  | some b =>
    rw [hg, Option.some_bind] at h
    cases hit : Block.Iter b with
    | none =>
      rw [hit, Option.map_none'] at h
      exact Option.noConfusion h
    | some b2 =>
      rw [hit, Option.map_some'] at h
      have hr := Option.some.inj h
      rw [← hr]
      simp only [goWrite, List.length_set]

theorem access_fold_spec (n : ℕ) (hn : 0 < n) :
    ∀ (k : ℕ) (st : Area), st.blocks.length = n → 0 ≤ st.curPos →
      ∃ r, List.foldlM (fun s (_ : ℕ) => accessStep n s) st (List.range k) = some r ∧
        r.blocks.length = n ∧ 0 ≤ r.curPos ∧ (0 < k → r.curPos < (n : ℤ)) ∧
        (k = 0 → r = st) := by
  intro k
  induction k with
  | zero =>
    intro st hlen hpos
    exact ⟨st, rfl, hlen, hpos, by omega, fun _ => rfl⟩
  | succ m ih =>
    intro st hlen hpos
    obtain ⟨r, hr, hrlen, hrpos, _, _⟩ := ih st hlen hpos
    obtain ⟨r2, h2, h2len, h2pos, h2lt⟩ := accessStep_spec n r hn hrlen hrpos
    refine ⟨r2, ?_, h2len, h2pos, fun _ => h2lt, fun hk => absurd hk (Nat.succ_ne_zero m)⟩
    rw [List.range_succ, List.foldlM_append, hr]
    show List.foldlM (fun s (_ : ℕ) => accessStep n s) r [m] = some r2
    rw [List.foldlM_cons]
    show accessStep n r >>= (fun i => List.foldlM (fun s (_ : ℕ) => accessStep n s) i []) =
      some r2
    rw [h2]
    rfl

theorem access_fold_length (n : ℕ) :
    ∀ (k : ℕ) (st r : Area),
      List.foldlM (fun s (_ : ℕ) => accessStep n s) st (List.range k) = some r →
      r.blocks.length = st.blocks.length := by
  intro k
  induction k with
  | zero =>
    intro st r h
    rw [List.range_zero, List.foldlM_nil] at h
    have hr := Option.some.inj h
    rw [← hr]
  | succ m ih =>
    intro st r h
    rw [List.range_succ, List.foldlM_append] at h
    cases hmid : List.foldlM (fun s (_ : ℕ) => accessStep n s) st (List.range m) with
    | none =>
      rw [hmid] at h
      exact Option.noConfusion h
    | some mid =>
      rw [hmid] at h
      have h2 : List.foldlM (fun s (_ : ℕ) => accessStep n s) mid [m] = some r := h
      rw [List.foldlM_cons] at h2
      cases hstep : accessStep n mid with
      | none =>
        rw [hstep] at h2
        exact Option.noConfusion h2
      | some r2 =>
        rw [hstep] at h2
        have h3 : some r2 = some r := h2
        have hr2 := Option.some.inj h3
        rw [← hr2] at h ⊢
        exact (accessStep_length n mid r2 hstep).trans (ih st mid hmid)

theorem area_access_spec (a : Area) (hpos : 0 ≤ a.curPos) :
    ∃ r, a.Access = some r ∧ r.blocks.length = a.blocks.length ∧ 0 ≤ r.curPos ∧
      (a.blocks.length = 0 → r = a) ∧
      (0 < a.blocks.length → r.curPos < (a.blocks.length : ℤ)) := by
  simp only [Area.Access]
  by_cases h0 : a.blocks.length = 0
  · rw [if_pos h0]
    exact ⟨a, rfl, rfl, hpos, fun _ => rfl, fun hlt => absurd h0 (by omega)⟩
  · rw [if_neg h0]
    have hn : 0 < a.blocks.length := Nat.pos_of_ne_zero h0
    obtain ⟨r, hr, hrlen, hrpos, hrlt, _⟩ := access_fold_spec a.blocks.length hn
      (a.blocks.length / 100 + 1) { a with curPos := a.curPos + 1 } rfl
      (by show 0 ≤ a.curPos + 1; omega)
    exact ⟨r, hr, hrlen, hrpos, fun hz => absurd hz h0, fun _ => hrlt (by omega)⟩

/-- C6: the arena is append-only.  Increase appends exactly one block, Access
never changes the block count, and one memoryWorker allocation tick grows the
arena by at most one block (and never shrinks it) even when the arena is far
below its assigned target. -/
theorem arena_append_only_and_tick_bound :
    (∀ a r, Area.Increase a = some r → r.blocks.length = a.blocks.length + 1) ∧
    (∀ a r, Area.Access a = some r → r.blocks.length = a.blocks.length) ∧
    (∀ a t r, memoryWorkerTick a t = some r →
      a.blocks.length ≤ r.blocks.length ∧ r.blocks.length ≤ a.blocks.length + 1) := by
  have hinc : ∀ a r, Area.Increase a = some r → r.blocks.length = a.blocks.length + 1 := by
    intro a r h
    obtain ⟨r2, h2, hlen, _⟩ := increase_spec a
    have hrr : r2 = r := by
      rw [h2] at h
      exact Option.some.inj h
    rw [← hrr]
    exact hlen
  have hacc : ∀ a r, Area.Access a = some r → r.blocks.length = a.blocks.length := by
    intro a r h
    simp only [Area.Access] at h
    by_cases h0 : a.blocks.length = 0
    · rw [if_pos h0] at h
      have hr := Option.some.inj h
      rw [← hr]
    · rw [if_neg h0] at h
      exact access_fold_length a.blocks.length (a.blocks.length / 100 + 1)
        { a with curPos := a.curPos + 1 } r h
  refine ⟨hinc, hacc, ?_⟩
  intro a t r h
  unfold memoryWorkerTick at h
  cases hA : Area.Access a with
  | none =>
    rw [hA, Option.none_bind] at h
    exact Option.noConfusion h
  | some a1 =>
    rw [hA, Option.some_bind] at h
    have ha1 := hacc a a1 hA
    by_cases ht : 0 < t
    · rw [if_pos ht] at h
      by_cases hlt : a1.GetTotalSizeMB < t
      · rw [if_pos hlt] at h
        have := hinc a1 r h
        omega
      · rw [if_neg hlt] at h
        have hr := Option.some.inj h
        rw [← hr]
        omega
    · rw [if_neg ht] at h
      have hr := Option.some.inj h
      rw [← hr]
      omega

/-- Witness for C6: a tick on the empty arena with target 0 leaves the block
count unchanged and within the one-block growth bound. -/
theorem arena_append_only_and_tick_bound_witness :
    areaEmpty.blocks.length ≤ areaEmpty.blocks.length ∧
    areaEmpty.blocks.length ≤ areaEmpty.blocks.length + 1 :=
  arena_append_only_and_tick_bound.2.2 areaEmpty 0 areaEmpty rfl

/-- C10 (counterexample): the stride loop of Block.Iter visits offset 4092 and
therefore reads at offset 4093, contradicting the claimed maximum read offset
of 3070. -/
theorem block_iter_reads_beyond_3070 :
    4092 ∈ iterStride 0 ∧ ¬(4092 + 1 ≤ 3070) := by
  refine ⟨?_, by decide⟩
  rw [iterStride_zero]
  decide

/-- C10 (amended): Area.Access is total and in-bounds at the public interface.
On an empty arena it returns the arena (and cursor) unchanged; on a non-empty
arena it succeeds (every block index is wrapped into [0, blockCount) before
use) and leaves the cursor in [0, blockCount); every byte offset used by
Block.Iter is below 4096 with reads at offset j+1 of at most 4093 (not 3070),
and every page index is below 256. -/
theorem area_access_safe_and_bounded (a : Area) (hpos : 0 ≤ a.curPos) :
    (Area.Access a).isSome = true ∧
    (a.blocks.length = 0 → Area.Access a = some a) ∧
    (0 < a.blocks.length →
      0 ≤ ((Area.Access a).getD a).curPos ∧
      ((Area.Access a).getD a).curPos < (a.blocks.length : ℤ)) ∧
    (∀ j ∈ iterStride 0, j < 4096 ∧ j + 1 ≤ 4093 ∧ j + 1 < 4096) ∧
    (∀ i ∈ List.range 256, i < 256) := by
  obtain ⟨r, hr, hrlen, hrpos, hre, hrlt⟩ := area_access_spec a hpos
  refine ⟨by rw [hr]; rfl, fun h0 => by rw [hr, hre h0], fun hlt => ?_, ?_, ?_⟩
  · rw [hr]
    simp only [Option.getD_some]
    exact ⟨hrpos, hrlt hlt⟩
  · intro j hj
    have hb := iterStride_mem j hj
    exact ⟨hb.1, hb.2.2, hb.2.1⟩
  · intro i hi
    exact List.mem_range.mp hi

/-- Witness for the amended C10 at a concrete area with cursor 3. -/
theorem area_access_safe_and_bounded_witness :
    (0 : ℤ) ≤ 3 ∧ (Area.Access { blocks := [], curPos := 3 }).isSome = true :=
  ⟨by norm_num,
   (area_access_safe_and_bounded { blocks := [], curPos := 3 } (by norm_num)).1⟩
